import Mathlib

/-!
Verification of the line-request configuration resolution layer of the
libgpiod Python bindings (src/bindings/python/gpiod).

The embedding translates the Python modules `chip.py`, `line_request.py`,
`_internal.py`, `line.py` and `line_settings.py` into pure Lean functions.
Python exceptions become an explicit error type returned through `Except`;
the C extension module `_ext` (not part of the Python sources) is the
external collaborator and is modelled by function-valued fields of the
`Chip` and `ExtRequest` records, exactly as the spec treats it (a
name-to-offset lookup that fails distinguishably, a request object with
get/set/reconfigure/poll primitives).
-/

namespace Gpiod

/-! ## Association lists

Python `dict` objects preserve insertion order; `d[k] = v` overwrites the
value of an existing key in place and appends a fresh key at the end.
`assocGet`/`assocSet` mirror that behaviour on ordered association lists. -/

/-- Lookup of a key in an ordered association list (Python `d.get(k)`). -/
def assocGet {α β : Type} [DecidableEq α] : List (α × β) → α → Option β
  | [], _ => none
  | (k, v) :: rest, k2 => if k = k2 then some v else assocGet rest k2

/-- Insertion with overwrite (Python `d[k] = v`): an existing key keeps its
position and gets the new value, a fresh key is appended at the end. -/
def assocSet {α β : Type} [DecidableEq α] : List (α × β) → α → β → List (α × β)
  | [], k2, v2 => [(k2, v2)]
  | (k, v) :: rest, k2, v2 =>
    if k = k2 then (k2, v2) :: rest else (k, v) :: assocSet rest k2 v2

/-! ## Enumerations of gpiod.line (line.py) -/

/-- Logical line value (line.py, class Value). -/
inductive Value where
  | inactive
  | active
deriving DecidableEq, Repr

/-- Direction settings (line.py, class Direction). -/
inductive Direction where
  | as_is
  | input
  | output
deriving DecidableEq, Repr

/-- Internal bias settings (line.py, class Bias). -/
inductive Bias where
  | as_is
  | unknown
  | disabled
  | pull_up
  | pull_down
deriving DecidableEq, Repr

/-- Drive settings (line.py, class Drive). -/
inductive Drive where
  | push_pull
  | open_drain
  | open_source
deriving DecidableEq, Repr

/-- Edge detection settings (line.py, class Edge). -/
inductive Edge where
  | none
  | rising
  | falling
  | both
deriving DecidableEq, Repr

/-- Event clock settings (line.py, class Clock). -/
inductive Clock where
  | monotonic
  | realtime
  | hte
deriving DecidableEq, Repr

/-! ## Line settings (line_settings.py) -/

/-- The LineSettings dataclass (line_settings.py). The Python field
`debounce_period` is a `datetime.timedelta`; it is modelled here by its
length in microseconds, which is exactly the quantity `_line_settings_to_ext`
sends to the collaborator (`int(total_seconds() * 1000000)`). -/
structure LineSettings where
  direction : Direction
  edge_detection : Edge
  bias : Bias
  drive : Drive
  active_low : Bool
  debounce_period_us : Int
  event_clock : Clock
  output_value : Value
deriving DecidableEq, Repr

/-- The dataclass defaults of LineSettings: `LineSettings()` in Python. -/
def LineSettings.default : LineSettings :=
  ⟨Direction.as_is, Edge.none, Bias.as_is, Drive.push_pull, false, 0,
    Clock.monotonic, Value.inactive⟩

/-- The `_ext.LineSettings` value built by `_line_settings_to_ext`
(line_settings.py lines 60-70): same fields, enums passed by value,
debounce period in integral microseconds. -/
structure ExtLineSettings where
  direction : Direction
  edge_detection : Edge
  bias : Bias
  drive : Drive
  active_low : Bool
  debounce_period : Int
  event_clock : Clock
  output_value : Value
deriving DecidableEq, Repr

/-- Translation of `_line_settings_to_ext` (line_settings.py lines 60-70). -/
def lineSettingsToExt (s : LineSettings) : ExtLineSettings :=
  ⟨s.direction, s.edge_detection, s.bias, s.drive, s.active_low,
    s.debounce_period_us, s.event_clock, s.output_value⟩

/-! ## Identifiers and errors -/

/-- A user-supplied line identifier: a Python `int` or `str`
(the `Union[int, str]` accepted by chip.py and line_request.py). -/
inductive LineId where
  | int (i : Int)
  | str (s : String)
deriving DecidableEq, Repr

/-- The exceptions the translated code can raise.  `osError e` carries the
errno of an `OSError` coming back from the collaborator (`FileNotFoundError`
when `e` is ENOENT); `valueError` carries the message of a Python
`ValueError`; `chipClosed` and `requestReleased` are the dedicated classes
of exception.py; `indexError` models `IndexError` from list indexing. -/
inductive PyError where
  | osError (errno : Int)
  | valueError (msg : String)
  | chipClosed
  | requestReleased
  | indexError
deriving DecidableEq, Repr

/-- errno.ENOENT, the errno compared against in chip.py line 143. -/
def ENOENT : Int := 2

/-! ## The chip collaborator

`_ext.Chip` (the C extension, not part of the Python sources) is modelled
by the record below, following the collaborator contract the spec states:
a line count, a name-to-offset lookup raising `OSError` with a
distinguishable errno on failure (ENOENT when the name does not exist),
and per-offset line-name discovery (`get_line_name`, returning an empty or
missing name for unnamed lines).  The claims all concern an open chip, so
`Chip` stands for the `_ext.Chip` held by an open `gpiod.Chip` (a closed
chip fails every operation with `chipClosed` before any of this code
runs; that check is the one-line `_check_closed` of chip.py). -/
structure Chip where
  name : String
  num_lines : Nat
  name_lookup : String → Except Int Int
  get_line_name : Int → Option String

/-! ## Python `int(string)` -/

/-- Value of a decimal digit character. -/
def digitVal (ch : Char) : Option Nat :=
  if ch.isDigit then some (ch.toNat - 48) else none

/-- Decimal value of a nonempty digit string, left to right. -/
def digitsValAux : Nat → List Char → Option Nat
  | acc, [] => some acc
  | acc, ch :: rest =>
    match digitVal ch with
    | some d => digitsValAux (acc * 10 + d) rest
    | none => none

/-- Decimal value of a digit list; `none` when empty or non-numeric. -/
def digitsVal : List Char → Option Nat
  | [] => none
  | cs => digitsValAux 0 cs

/-- The Python builtin `int()` applied to a string, as used at chip.py line
145: base-10 with an optional sign, `none` when the string is not numeric
(Python then raises `ValueError`, which chip.py catches).  The builtin also
ignores surrounding whitespace and underscore digit separators; those inputs
play no role in any claim and are not modelled. -/
def pyIntOfString (s : String) : Option Int :=
  match s.toList with
  | '-' :: rest => (digitsVal rest).map (fun n => -(n : Int))
  | '+' :: rest => (digitsVal rest).map (fun n => (n : Int))
  | cs => (digitsVal cs).map (fun n => (n : Int))

/-! ## Chip.line_offset_from_id (chip.py lines 120-156) -/

/-- The final range check of chip.py lines 153-156: an offset at or above
`num_lines` raises `ValueError("line offset of out range")` (message as in
the source).  Note the check is one-sided: there is no lower bound. -/
def checkOffsetRange (c : Chip) (offset : Int) : Except PyError Int :=
  if (c.num_lines : Int) ≤ offset then
    Except.error (PyError.valueError "line offset of out range")
  else
    Except.ok offset

/-- Translation of `Chip.line_offset_from_id` (chip.py lines 120-156).
An integer identifier goes straight to the range check.  A string is first
looked up as a name via the collaborator; a successful lookup returns its
offset directly (no range check — the early `return` at line 141).  On
`OSError` with errno ENOENT the string is reinterpreted as an integer; if
that fails the original error is re-raised, otherwise the parsed offset is
range checked.  Any other errno is re-raised unchanged. -/
def lineOffsetFromId (c : Chip) (id : LineId) : Except PyError Int :=
  match id with
  | LineId.int i => checkOffsetRange c i
  | LineId.str s =>
    match c.name_lookup s with
    | Except.ok off => Except.ok off
    | Except.error errno =>
      if errno = ENOENT then
        match pyIntOfString s with
        | none => Except.error (PyError.osError errno)
        | some off => checkOffsetRange c off
      else Except.error (PyError.osError errno)

/-! ## Request configuration (config_iter and Chip.request_lines)

The `config` argument of `Chip.request_lines` is a Python dict whose keys
are single identifiers or iterables of identifiers; it is modelled as an
insertion-ordered list of (key, optional settings) pairs. -/

/-- A key of the `config` dict: a scalar identifier or an ordered group. -/
inductive ConfigKey where
  | single (id : LineId)
  | group (ids : List LineId)
deriving DecidableEq, Repr

/-- The `config` mapping in insertion order. -/
abbrev Config := List (ConfigKey × Option LineSettings)

/-- Translation of `config_iter` (_internal.py lines 29-37): scalar keys
yield one pair, iterable keys yield one pair per member in order, every
member paired with the entry's settings. -/
def config_iter (config : Config) : List (LineId × Option LineSettings) :=
  config.flatMap fun e =>
    match e.1 with
    | ConfigKey.single id => [(id, e.2)]
    | ConfigKey.group ids => ids.map fun id => (id, e.2)

/-- The `_ext.LineConfig` collaborator object: it accumulates the blocks
passed to `add_line_settings` in call order and stores the flat vector
passed to `set_output_values` (chip.py calls it at most once). -/
structure LineConfig where
  blocks : List (List Int × ExtLineSettings)
  output_values : Option (List Value)
deriving DecidableEq, Repr

/-- A fresh `_ext.LineConfig()`. -/
def LineConfig.empty : LineConfig := ⟨[], none⟩

/-- `line_cfg.add_line_settings(offsets, settings)`. -/
def LineConfig.add_line_settings (cfg : LineConfig) (offsets : List Int)
    (settings : ExtLineSettings) : LineConfig :=
  ⟨cfg.blocks ++ [(offsets, settings)], cfg.output_values⟩

/-- `line_cfg.set_output_values(values)`. -/
def LineConfig.set_output_values (cfg : LineConfig) (values : List Value) :
    LineConfig :=
  ⟨cfg.blocks, some values⟩

/-- The message of the duplicate-offset `ValueError` of chip.py lines
290-292. -/
def dupMsg (offset : Int) : String :=
  "line must be configured exactly once - offset " ++ toString offset ++
    " repeats"

/-- The name-map update performed for one flattened identifier (chip.py
lines 304-314): an identifier supplied as a string records name to offset,
overwriting any existing entry; an identifier supplied as an integer records
the chip-discovered name of its offset only when that name is non-empty and
not yet present (so the first requested line wins the name). -/
def updateNameMap (c : Chip) (nm : List (String × Int)) (line : LineId)
    (offset : Int) : List (String × Int) :=
  match line with
  | LineId.str s => assocSet nm s offset
  | LineId.int _ =>
    match c.get_line_name offset with
    | some n =>
      if n ≠ "" ∧ (assocGet nm n).isNone then nm ++ [(n, offset)] else nm
    | none => nm

/-- The mutable loop state of `Chip.request_lines` (chip.py lines 279-282):
`seen_offsets` is a Python `set`, kept here as the list of offsets in first
insertion order, which is also the offset list of the submitted request. -/
structure ReqState where
  name_map : List (String × Int)
  requested_lines : List LineId
  global_output_values : List Value
  seen_offsets : List Int
  line_cfg : LineConfig

/-- The loop state before the first iteration. -/
def ReqState.init : ReqState := ⟨[], [], [], [], LineConfig.empty⟩

/-- The `if mapped_output_values:` block of chip.py lines 297-302: when the
mapped override dict exists and is non-empty (Python truthiness), append the
value for the offset, defaulting to inactive; otherwise leave the vector
alone. -/
def govStep (mapped : Option (List (Int × Value))) (gov : List Value)
    (offset : Int) : List Value :=
  match mapped with
  | some m =>
    if m.isEmpty then gov
    else gov ++ [(assocGet m offset).getD Value.inactive]
  | none => gov

/-- The state after one successful loop iteration for `line` resolved to
`offset` (chip.py lines 293-318). -/
def stepState (c : Chip) (mapped : Option (List (Int × Value)))
    (st : ReqState) (line : LineId) (offset : Int)
    (settings : Option LineSettings) : ReqState :=
  ⟨updateNameMap c st.name_map line offset,
    st.requested_lines ++ [line],
    govStep mapped st.global_output_values offset,
    st.seen_offsets ++ [offset],
    st.line_cfg.add_line_settings [offset]
      (lineSettingsToExt (settings.getD LineSettings.default))⟩

/-- One iteration of the `for line, settings in config_iter(config)` loop of
`Chip.request_lines` (chip.py lines 284-318): resolve the identifier, fail
on a repeated offset, record the offset and original identifier, append the
global output value for the offset when a non-empty mapped override dict
exists, update the name map, and add one settings block for the offset. -/
def requestStep (c : Chip) (mapped : Option (List (Int × Value)))
    (st : ReqState) (line : LineId) (settings : Option LineSettings) :
    Except PyError ReqState :=
  (lineOffsetFromId c line).bind fun offset =>
    if st.seen_offsets.contains offset then
      Except.error (PyError.valueError (dupMsg offset))
    else
      Except.ok (stepState c mapped st line offset settings)

/-- The full loop of `Chip.request_lines` over the flattened config. -/
def requestLoop (c : Chip) (mapped : Option (List (Int × Value))) :
    List (LineId × Option LineSettings) → ReqState → Except PyError ReqState
  | [], st => Except.ok st
  | (line, settings) :: rest, st =>
    (requestStep c mapped st line settings).bind (requestLoop c mapped rest)

/-- The mapped output values of chip.py lines 272-277: for a truthy (present
and non-empty) `output_values` dict, resolve every key and build the
offset-to-value dict, later keys overwriting earlier ones that resolve to
the same offset; a missing or empty dict stays `none`. -/
def mappedOutputValues (c : Chip)
    (output_values : Option (List (LineId × Value))) :
    Except PyError (Option (List (Int × Value))) :=
  match output_values with
  | none => Except.ok none
  | some ovs =>
    if ovs.isEmpty then Except.ok none
    else
      (ovs.foldlM
        (fun acc p =>
          (lineOffsetFromId c p.1).map fun off => assocSet acc off p.2)
        ([] : List (Int × Value))).map some

/-- What `Chip.request_lines` hands back on success: the fields the new
`LineRequest` object is populated with (chip.py lines 323-334; `offsets`
comes back from the collaborator as the requested offsets in order), plus
the `LineConfig` that was submitted to the collaborator. -/
structure LineRequestData where
  chip_name : String
  offsets : List Int
  name_map : List (String × Int)
  lines : List LineId
  submitted : LineConfig
deriving DecidableEq, Repr

/-- Translation of `Chip.request_lines` (chip.py lines 238-334).  The
`consumer` and `event_buffer_size` arguments are passed verbatim to the
collaborator and influence nothing here; they are omitted.  A returned
error means the `_ext.Chip.request_lines` call at line 323 was never
reached: nothing was submitted to the chip. -/
def Chip.request_lines (c : Chip) (config : Config)
    (output_values : Option (List (LineId × Value))) :
    Except PyError LineRequestData :=
  (mappedOutputValues c output_values).bind fun mapped =>
    (requestLoop c mapped (config_iter config) ReqState.init).map fun st =>
      let line_cfg :=
        if st.global_output_values.isEmpty then st.line_cfg
        else st.line_cfg.set_output_values st.global_output_values
      ⟨c.name, st.seen_offsets, st.name_map, st.requested_lines, line_cfg⟩

/-! ## The line request handle (line_request.py) -/

/-- An edge event as returned by the collaborator (opaque to the claims). -/
structure EdgeEvent where
  line_offset : Int
deriving DecidableEq, Repr

/-- The `_ext.Request` collaborator held by a live `LineRequest`: a file
descriptor and the get/set/reconfigure/poll/read primitives, modelled as
abstract functions (their behaviour is the kernel's, outside this layer). -/
structure ExtRequest where
  fd : Int
  get_values : List Int → Except PyError (List Value)
  set_values : List (Int × Value) → Except PyError Unit
  reconfigure : LineConfig → Except PyError Unit
  poll_ready : Bool
  edge_events : Option Int → List EdgeEvent

/-- The `LineRequest` object (line_request.py): `_req` is `none` once the
request has been released (line 80), and every operation checks it first
(`_check_released`, lines 69-71). -/
structure LineRequest where
  _req : Option ExtRequest
  _chip_name : String
  _offsets : List Int
  _name_map : List (String × Int)
  _lines : List LineId

/-- Translation of `LineRequest._line_to_offset` (line_request.py lines
95-103): integers pass through unchanged (no membership check against the
requested offsets), strings are looked up in the name map and fail with
`ValueError` when absent. -/
def LineRequest._line_to_offset (lr : LineRequest) (line : LineId) :
    Except PyError Int :=
  match line with
  | LineId.int i => Except.ok i
  | LineId.str s =>
    match assocGet lr._name_map s with
    | none => Except.error (PyError.valueError ("unknown line name: " ++ s))
    | some off => Except.ok off

/-- The list comprehension `[self._line_to_offset(line) for line in lines]`
(line_request.py line 123): resolves left to right, failing at the first
bad identifier. -/
def linesToOffsets (lr : LineRequest) : List LineId → Except PyError (List Int)
  | [] => Except.ok []
  | l :: rest =>
    (lr._line_to_offset l).bind fun off =>
      (linesToOffsets lr rest).map fun offs => off :: offs

/-- Translation of `LineRequest.get_values` (line_request.py lines 105-128).
The Python body runs `lines = lines or self._lines`: both `None` and an
empty list are falsy, so either reads all originally requested lines.  The
resolved offsets are handed to the collaborator, which fills and returns
the value buffer. -/
def LineRequest.get_values (lr : LineRequest)
    (lines : Option (List LineId)) : Except PyError (List Value) :=
  match lr._req with
  | none => Except.error PyError.requestReleased
  | some req =>
    let ls :=
      match lines with
      | none => lr._lines
      | some [] => lr._lines
      | some l => l
    (linesToOffsets lr ls).bind req.get_values

/-- Translation of `LineRequest.get_value` (line_request.py lines 82-93):
`self.get_values([line])[0]`; indexing an empty result would raise
`IndexError`. -/
def LineRequest.get_value (lr : LineRequest) (line : LineId) :
    Except PyError Value :=
  (lr.get_values (some [line])).bind fun vs =>
    match vs with
    | [] => Except.error PyError.indexError
    | v :: _ => Except.ok v

/-- Translation of `LineRequest.set_values` (line_request.py lines 142-154):
the dict comprehension resolves every key through `_line_to_offset` (failing
at the first bad name), building the offset-to-value dict handed to the
collaborator in one batched call. -/
def LineRequest.set_values (lr : LineRequest)
    (values : List (LineId × Value)) : Except PyError Unit :=
  match lr._req with
  | none => Except.error PyError.requestReleased
  | some req =>
    (values.foldlM
      (fun acc p =>
        (lr._line_to_offset p.1).map fun off => assocSet acc off p.2)
      ([] : List (Int × Value))).bind req.set_values

/-- Translation of `LineRequest.set_value` (line_request.py lines 130-140):
`self.set_values({line: value})`. -/
def LineRequest.set_value (lr : LineRequest) (line : LineId) (value : Value) :
    Except PyError Unit :=
  lr.set_values [(line, value)]

/-- Translation of `LineRequest.release` (line_request.py lines 73-80): the
released-state check, the collaborator release, then `_req = None`.  The
resulting object is returned so later operations can be examined. -/
def LineRequest.release (lr : LineRequest) : Except PyError LineRequest :=
  match lr._req with
  | none => Except.error PyError.requestReleased
  | some _ => Except.ok ⟨none, lr._chip_name, lr._offsets, lr._name_map, lr._lines⟩

/-- Translation of `LineRequest.reconfigure_lines` (line_request.py lines
156-185): resolve the flattened config into an offset-to-settings dict,
then emit one single-offset block per requested offset, using the stored
settings when present and non-None, else all defaults, and hand the new
config to the collaborator. -/
def LineRequest.reconfigure_lines (lr : LineRequest) (config : Config) :
    Except PyError Unit :=
  match lr._req with
  | none => Except.error PyError.requestReleased
  | some req =>
    ((config_iter config).foldlM
      (fun acc p =>
        (lr._line_to_offset p.1).map fun off => assocSet acc off p.2)
      ([] : List (Int × Option LineSettings))).bind fun line_settings =>
      let line_cfg :=
        lr._offsets.foldl
          (fun cfg offset =>
            let settings :=
              match assocGet line_settings offset with
              | some (some s) => s
              | _ => LineSettings.default
            cfg.add_line_settings [offset] (lineSettingsToExt settings))
          LineConfig.empty
      req.reconfigure line_cfg

/-- Translation of `LineRequest.wait_edge_events` (line_request.py lines
187-204): the released-state check, then `poll_fd(self.fd, timeout)`; the
poll outcome is the collaborator's. -/
def LineRequest.wait_edge_events (lr : LineRequest) : Except PyError Bool :=
  match lr._req with
  | none => Except.error PyError.requestReleased
  | some req => Except.ok req.poll_ready

/-- Translation of `LineRequest.read_edge_events` (line_request.py lines
206-219). -/
def LineRequest.read_edge_events (lr : LineRequest) (max_events : Option Int) :
    Except PyError (List EdgeEvent) :=
  match lr._req with
  | none => Except.error PyError.requestReleased
  | some req => Except.ok (req.edge_events max_events)

/-- The `chip_name` property (line_request.py lines 236-242). -/
def LineRequest.chip_name (lr : LineRequest) : Except PyError String :=
  match lr._req with
  | none => Except.error PyError.requestReleased
  | some _ => Except.ok lr._chip_name

/-- The `num_lines` property (line_request.py lines 244-250). -/
def LineRequest.num_lines (lr : LineRequest) : Except PyError Nat :=
  match lr._req with
  | none => Except.error PyError.requestReleased
  | some _ => Except.ok lr._offsets.length

/-- The `offsets` property (line_request.py lines 252-259). -/
def LineRequest.offsets (lr : LineRequest) : Except PyError (List Int) :=
  match lr._req with
  | none => Except.error PyError.requestReleased
  | some _ => Except.ok lr._offsets

/-- The `lines` property (line_request.py lines 261-267). -/
def LineRequest.lines (lr : LineRequest) : Except PyError (List LineId) :=
  match lr._req with
  | none => Except.error PyError.requestReleased
  | some _ => Except.ok lr._lines

/-- The `fd` property (line_request.py lines 269-275). -/
def LineRequest.fd (lr : LineRequest) : Except PyError Int :=
  match lr._req with
  | none => Except.error PyError.requestReleased
  | some req => Except.ok req.fd

/-! ## Concrete chips and requests for witnesses and counterexamples

`mkChip` realises the collaborator contract the way the simulated chips of
the test suite do: the name lookup returns the lowest offset carrying the
name, or fails with errno ENOENT; `get_line_name` returns the line's name
when it has one. -/

/-- A concrete chip with the given label, line count and named lines. -/
def mkChip (label : String) (n : Nat) (names : List (Int × String)) : Chip :=
  ⟨label, n,
    fun s =>
      match names.find? fun p => p.2 = s with
      | some p => Except.ok p.1
      | none => Except.error ENOENT,
    fun o => (names.find? fun p => p.1 = o).map fun p => p.2⟩

/-- An 8-line chip with four named lines (as in tests_chip.py). -/
def chip8 : Chip :=
  mkChip "gpiochip0" 8 [(1, "foo"), (2, "bar"), (4, "baz"), (5, "xyz")]

/-- An 8-line chip with no named lines. -/
def chipBare8 : Chip := mkChip "gpiochip1" 8 []

/-- A chip whose name lookup fails with errno 5 (EIO), not ENOENT. -/
def chipEIO : Chip :=
  ⟨"gpiochip9", 4, fun _ => Except.error 5, fun _ => none⟩

/-- A 2-line chip whose lines 0 and 1 are both named "fizz" (the name
shadowing scenario of the spec). -/
def fizzChip : Chip := mkChip "gpiochip2" 2 [(0, "fizz"), (1, "fizz")]

example : lineOffsetFromId chip8 (LineId.str "baz") = Except.ok 4 := rfl
example : lineOffsetFromId chip8 (LineId.int 4) = Except.ok 4 := rfl
example : lineOffsetFromId chip8 (LineId.int 9) =
    Except.error (PyError.valueError "line offset of out range") := rfl
example : lineOffsetFromId chip8 (LineId.str "nonexistent") =
    Except.error (PyError.osError ENOENT) := rfl
example : lineOffsetFromId chipBare8 (LineId.str "4") = Except.ok 4 := rfl
example : pyIntOfString "99" = some 99 := rfl
example : pyIntOfString "-3" = some (-3) := rfl
example : pyIntOfString "bar" = none := rfl

/-- A config requesting offsets (0, 1, 2, 1) in one group. -/
def cfgDup : Config :=
  [(ConfigKey.group [LineId.int 0, LineId.int 1, LineId.int 2, LineId.int 1],
    none)]

/-- A config requesting (0, 1, 2) and (3, 4, 0) as two groups. -/
def cfgCross : Config :=
  [(ConfigKey.group [LineId.int 0, LineId.int 1, LineId.int 2], none),
   (ConfigKey.group [LineId.int 3, LineId.int 4, LineId.int 0], none)]

/-- A config requesting (2, "bar") — a name and an offset that both resolve
to offset 2 on chip8. -/
def cfgAlias : Config :=
  [(ConfigKey.group [LineId.int 2, LineId.str "bar"], none)]

/-- A config requesting offsets (1, 0) of the fizz chip by integer. -/
def cfgFizz : Config :=
  [(ConfigKey.group [LineId.int 1, LineId.int 0], none)]

/-- A config requesting the group (0, 1) with default settings. -/
def cfgPair : Config :=
  [(ConfigKey.group [LineId.int 0, LineId.int 1], none)]

/-- A config requesting output lines (0, 1, 2, 3) in one group. -/
def cfgQuad : Config :=
  [(ConfigKey.group [LineId.int 0, LineId.int 1, LineId.int 2, LineId.int 3],
    some { LineSettings.default with direction := Direction.output })]

example : Chip.request_lines chip8 cfgDup none =
    Except.error (PyError.valueError (dupMsg 1)) := rfl
example : Chip.request_lines chip8 cfgCross none =
    Except.error (PyError.valueError (dupMsg 0)) := rfl
example : Chip.request_lines chip8 cfgAlias none =
    Except.error (PyError.valueError (dupMsg 2)) := rfl
example : (Chip.request_lines fizzChip cfgFizz none).map
    (fun r => (r.name_map, r.offsets, r.lines)) =
    Except.ok ([("fizz", 1)], [1, 0], [LineId.int 1, LineId.int 0]) := rfl
example : (Chip.request_lines chip8 cfgQuad
      (some [(LineId.int 2, Value.active)])).map
    (fun r => r.submitted.output_values) =
    Except.ok (some [Value.inactive, Value.inactive, Value.active,
      Value.inactive]) := rfl
example : (Chip.request_lines chip8 cfgPair none).map
    (fun r => r.submitted.blocks.map Prod.fst) =
    Except.ok [[0], [1]] := rfl
example : (Chip.request_lines chip8 cfgPair none).map
    (fun r => r.submitted.output_values) = Except.ok none := rfl

/-! ## Characterising the request loop -/

/-- Resolution of a list of identifiers, left to right, failing at the
first identifier that does not resolve (used to state hypotheses about
configs whose identifiers all resolve). -/
def resolveList (c : Chip) : List LineId → Except PyError (List Int)
  | [] => Except.ok []
  | id :: rest =>
    (lineOffsetFromId c id).bind fun off =>
      (resolveList c rest).map fun offs => off :: offs

/-- The name map produced by folding `updateNameMap` over the flattened
identifiers paired with their resolved offsets, in request order. -/
def buildNameMap (c : Chip) :
    List (String × Int) → List (LineId × Int) → List (String × Int)
  | nm, [] => nm
  | nm, p :: rest => buildNameMap c (updateNameMap c nm p.1 p.2) rest

/-- The flat output-value vector for the resolved offsets: the mapped value
for offsets present in the override dict, inactive for the rest. -/
def govFor (m : List (Int × Value)) (offs : List Int) : List Value :=
  offs.map fun o => (assocGet m o).getD Value.inactive

/-- The settings blocks emitted by the loop: one single-offset block per
flattened identifier, in order, carrying the entry's settings (all defaults
when the entry's value was None), converted for the collaborator. -/
def blocksFor (flat : List (LineId × Option LineSettings)) (offs : List Int) :
    List (List Int × ExtLineSettings) :=
  (offs.zip (flat.map Prod.snd)).map fun p =>
    ([p.1], lineSettingsToExt (p.2.getD LineSettings.default))

/-- Advancing the loop through a prefix whose offsets resolve and are fresh
and pairwise distinct: the loop reaches the rest of the list with the
prefix's offsets appended to the seen set. -/
lemma requestLoop_clean (c : Chip) (mapped : Option (List (Int × Value))) :
    ∀ (fpre : List (LineId × Option LineSettings)) (xs : List Int)
      (st : ReqState),
      resolveList c (fpre.map Prod.fst) = Except.ok xs →
      xs.Nodup → (∀ x ∈ xs, x ∉ st.seen_offsets) →
      ∀ frest, ∃ st2,
        requestLoop c mapped (fpre ++ frest) st =
          requestLoop c mapped frest st2 ∧
        st2.seen_offsets = st.seen_offsets ++ xs := by
  intro fpre
  induction fpre with
  | nil =>
    intro xs st hres _ _ frest
    refine ⟨st, by simp, ?_⟩
    simp only [List.map_nil, resolveList] at hres
    cases hres
    simp
  | cons p rest ih =>
    intro xs st hres hnodup hdisj frest
    obtain ⟨line, settings⟩ := p
    simp only [List.map_cons, resolveList] at hres
    cases h1 : lineOffsetFromId c line with
    | error e => rw [h1] at hres; simp [Except.bind] at hres
    | ok x =>
      rw [h1] at hres
      cases h2 : resolveList c (rest.map Prod.fst) with
      | error e => rw [h2] at hres; simp [Except.bind, Except.map] at hres
      | ok ys =>
        rw [h2] at hres
        simp only [Except.bind, Except.map, Except.ok.injEq] at hres
        subst hres
        have hx : x ∉ st.seen_offsets := hdisj x (by simp)
        have hstep : requestStep c mapped st line settings =
            Except.ok (stepState c mapped st line x settings) := by
          simp [requestStep, h1, Except.bind, hx]
        have hnodup2 : ys.Nodup := (List.nodup_cons.mp hnodup).2
        have hnotmem : x ∉ ys := (List.nodup_cons.mp hnodup).1
        obtain ⟨st2, heq, hseen⟩ :=
          ih ys (stepState c mapped st line x settings) h2 hnodup2
            (by
              intro y hy
              simp only [stepState, List.mem_append, List.mem_singleton]
              rintro (h | h)
              · exact hdisj y (by simp [hy]) h
              · exact hnotmem (h ▸ hy))
            frest
        refine ⟨st2, ?_, ?_⟩
        · rw [List.cons_append]
          simp only [requestLoop, hstep, Except.bind]
          exact heq
        · rw [hseen]; simp [stepState]

/-- The full flat output-value list contributed by the loop: empty unless a
non-empty mapped override dict exists (Python truthiness of
`mapped_output_values`), in which case one value per resolved offset. -/
def govAll (mapped : Option (List (Int × Value))) (offs : List Int) :
    List Value :=
  match mapped with
  | some m => if m.isEmpty then [] else govFor m offs
  | none => []

lemma govStep_append (mapped : Option (List (Int × Value)))
    (gov : List Value) (x : Int) (ys : List Int) :
    govStep mapped gov x ++ govAll mapped ys = gov ++ govAll mapped (x :: ys) := by
  cases mapped with
  | none => simp [govStep, govAll]
  | some m =>
    by_cases h : m.isEmpty <;> simp [govStep, govAll, govFor, h]

/-- Running the loop over a flattened config whose identifiers resolve to
pairwise distinct fresh offsets succeeds, and the final state is described
field by field: the folded name map, the original identifiers in order, the
output-value vector (when a non-empty override dict exists), the offsets in
order, and one single-offset settings block per identifier. -/
lemma requestLoop_ok (c : Chip) (mapped : Option (List (Int × Value))) :
    ∀ (flat : List (LineId × Option LineSettings)) (offs : List Int)
      (st : ReqState),
      resolveList c (flat.map Prod.fst) = Except.ok offs →
      offs.Nodup → (∀ x ∈ offs, x ∉ st.seen_offsets) →
      requestLoop c mapped flat st = Except.ok
        ⟨buildNameMap c st.name_map ((flat.map Prod.fst).zip offs),
          st.requested_lines ++ flat.map Prod.fst,
          st.global_output_values ++ govAll mapped offs,
          st.seen_offsets ++ offs,
          ⟨st.line_cfg.blocks ++ blocksFor flat offs,
            st.line_cfg.output_values⟩⟩ := by
  intro flat
  induction flat with
  | nil =>
    intro offs st hres _ _
    simp only [List.map_nil, resolveList] at hres
    cases hres
    simp [requestLoop, buildNameMap, blocksFor, govAll, govFor]
    cases st with
    | mk nm rl gov seen cfg =>
      cases mapped with
      | none => simp
      | some m => by_cases h : m.isEmpty <;> simp [h]
  | cons p rest ih =>
    intro offs st hres hnodup hdisj
    obtain ⟨line, settings⟩ := p
    simp only [List.map_cons, resolveList] at hres
    cases h1 : lineOffsetFromId c line with
    | error e => rw [h1] at hres; simp [Except.bind] at hres
    | ok x =>
      rw [h1] at hres
      cases h2 : resolveList c (rest.map Prod.fst) with
      | error e => rw [h2] at hres; simp [Except.bind, Except.map] at hres
      | ok ys =>
        rw [h2] at hres
        simp only [Except.bind, Except.map, Except.ok.injEq] at hres
        subst hres
        have hx : x ∉ st.seen_offsets := hdisj x (by simp)
        have hstep : requestStep c mapped st line settings =
            Except.ok (stepState c mapped st line x settings) := by
          simp [requestStep, h1, Except.bind, hx]
        have hnodup2 : ys.Nodup := (List.nodup_cons.mp hnodup).2
        have hnotmem : x ∉ ys := (List.nodup_cons.mp hnodup).1
        have hdisj2 : ∀ y ∈ ys, y ∉ (stepState c mapped st line x settings).seen_offsets := by
          intro y hy
          simp only [stepState, List.mem_append, List.mem_singleton]
          rintro (h | h)
          · exact hdisj y (by simp [hy]) h
          · exact hnotmem (h ▸ hy)
        have := ih ys (stepState c mapped st line x settings) h2 hnodup2 hdisj2
        simp only [requestLoop, hstep, Except.bind]
        rw [this]
        simp only [stepState, LineConfig.add_line_settings, Except.ok.injEq,
          ReqState.mk.injEq, LineConfig.mk.injEq]
        refine ⟨?_, ?_, ?_, ?_, ?_, trivial⟩
        · simp [buildNameMap, List.zip]
        · simp
        · exact govStep_append mapped st.global_output_values x ys
        · simp
        · simp [blocksFor]

/-- The request data produced by a fully successful `Chip.request_lines`
call: offsets in flattened order, the folded name map, the original
identifiers, one block per flattened identifier, and the output-value
vector exactly when one was accumulated. -/
def requestResult (c : Chip) (flat : List (LineId × Option LineSettings))
    (offs : List Int) (mapped : Option (List (Int × Value))) :
    LineRequestData :=
  ⟨c.name, offs,
    buildNameMap c [] ((flat.map Prod.fst).zip offs),
    flat.map Prod.fst,
    ⟨blocksFor flat offs,
      if (govAll mapped offs).isEmpty then none
      else some (govAll mapped offs)⟩⟩

/-- A request whose output-value resolution succeeds and whose flattened
identifiers resolve to pairwise distinct offsets succeeds and produces
exactly `requestResult`. -/
lemma request_lines_ok (c : Chip) (config : Config)
    (output_values : Option (List (LineId × Value)))
    (mapped : Option (List (Int × Value))) (offs : List Int)
    (hm : mappedOutputValues c output_values = Except.ok mapped)
    (hres : resolveList c ((config_iter config).map Prod.fst) = Except.ok offs)
    (hnodup : offs.Nodup) :
    Chip.request_lines c config output_values =
      Except.ok (requestResult c (config_iter config) offs mapped) := by
  unfold Chip.request_lines
  rw [hm]
  simp only [Except.bind]
  rw [requestLoop_ok c mapped (config_iter config) offs ReqState.init hres
    hnodup (by simp [ReqState.init])]
  simp only [Except.map, ReqState.init, LineConfig.empty, List.nil_append,
    LineConfig.set_output_values, requestResult]
  by_cases h : (govAll mapped offs).isEmpty <;> simp [h]

/-! ## Claim C2 -/

/-- C2 (amended): for an integer identifier, `Chip.line_offset_from_id`
succeeds and returns the identifier exactly when it is below the chip's
line count, and fails with the out-of-range `ValueError` otherwise.  The
range check is one-sided: a negative integer is below the line count, so it
is returned unchanged rather than rejected. -/
theorem C2_int_offset_resolution (c : Chip) (i : Int) :
    lineOffsetFromId c (LineId.int i) =
      if i < (c.num_lines : Int) then Except.ok i
      else Except.error (PyError.valueError "line offset of out range") := by
  simp only [lineOffsetFromId, checkOffsetRange]
  by_cases h : (c.num_lines : Int) ≤ i
  · rw [if_pos h, if_neg (not_lt.mpr h)]
  · rw [if_neg h, if_pos (not_le.mp h)]

/-- C2 counterexample to the claim as stated: on an 8-line chip the
negative integer identifier -1 is outside `0 <= id < num_lines`, yet the
call succeeds and returns -1 instead of failing with an out-of-range
error. -/
theorem C2_counterexample :
    (-1 : Int) < 0 ∧
      lineOffsetFromId chip8 (LineId.int (-1)) = Except.ok (-1) :=
  ⟨by decide, rfl⟩

/-! ## Claim C3 -/

/-- C3: for a string identifier the name lookup is attempted first and its
successful result is returned directly; a failure with an errno other than
ENOENT propagates unchanged with no integer reinterpretation; on ENOENT a
non-numeric string re-raises the original not-found error; and on ENOENT a
numeric string is re-validated as an offset by the range check. -/
theorem C3_name_lookup_first (c : Chip) (s : String) :
    (∀ off, c.name_lookup s = Except.ok off →
      lineOffsetFromId c (LineId.str s) = Except.ok off) ∧
    (∀ e, c.name_lookup s = Except.error e → e ≠ ENOENT →
      lineOffsetFromId c (LineId.str s) =
        Except.error (PyError.osError e)) ∧
    (c.name_lookup s = Except.error ENOENT → pyIntOfString s = none →
      lineOffsetFromId c (LineId.str s) =
        Except.error (PyError.osError ENOENT)) ∧
    (∀ n, c.name_lookup s = Except.error ENOENT → pyIntOfString s = some n →
      lineOffsetFromId c (LineId.str s) = checkOffsetRange c n) := by
  refine ⟨?_, ?_, ?_, ?_⟩
  · intro off h; simp [lineOffsetFromId, h]
  · intro e h hne; simp [lineOffsetFromId, h, hne]
  · intro h h2; simp [lineOffsetFromId, h, h2]
  · intro n h h2; simp [lineOffsetFromId, h, h2]

/-! ## Claim C4 -/

/-- C4 counterexample to the claim as stated: on an 8-line chip with no
line named "99", resolving the string "99" fails with the out-of-range
`ValueError` of the final range check, not with the not-found error kind
(the original `OSError` with errno ENOENT). -/
theorem C4_counterexample :
    chipBare8.name_lookup "99" = Except.error ENOENT ∧
      lineOffsetFromId chipBare8 (LineId.str "99") =
        Except.error (PyError.valueError "line offset of out range") :=
  ⟨rfl, rfl⟩

/-- C4 (amended): a string identifier that names no line (lookup fails
with ENOENT) but parses as an integer at or above the chip's line count
fails with the out-of-range `ValueError` — not a silent offset, and not
the not-found kind. -/
theorem C4_numeric_fallback_out_of_range (c : Chip) (s : String) (n : Int)
    (h1 : c.name_lookup s = Except.error ENOENT)
    (h2 : pyIntOfString s = some n)
    (h3 : (c.num_lines : Int) ≤ n) :
    lineOffsetFromId c (LineId.str s) =
      Except.error (PyError.valueError "line offset of out range") := by
  simp [lineOffsetFromId, h1, h2, checkOffsetRange, h3]

/-- C4 witness: the amended theorem applied to the spec's example, the
string "99" on an 8-line chip. -/
theorem C4_witness :
    lineOffsetFromId chipBare8 (LineId.str "99") =
      Except.error (PyError.valueError "line offset of out range") :=
  C4_numeric_fallback_out_of_range chipBare8 "99" 99 rfl rfl (by decide)

/-! ## Claim C1 -/

/-- C1: when the flattened identifiers of a request configuration contain
a repetition — a prefix resolving to pairwise distinct offsets followed by
an identifier resolving to one of them, whether the repeat sits inside one
group, across groups, or arises from a name and an integer denoting the
same line — `Chip.request_lines` fails with the `ValueError` naming the
repeated offset (not the original identifier).  The error return means the
loop aborted before the collaborator submission at chip.py line 323: the
request was never submitted to the underlying chip. -/
theorem C1_duplicate_offset_rejected (c : Chip) (config : Config)
    (output_values : Option (List (LineId × Value)))
    (mapped : Option (List (Int × Value)))
    (hm : mappedOutputValues c output_values = Except.ok mapped)
    (fpre : List (LineId × Option LineSettings))
    (pdup : LineId × Option LineSettings)
    (frest : List (LineId × Option LineSettings))
    (hflat : config_iter config = fpre ++ pdup :: frest)
    (xs : List Int)
    (hres : resolveList c (fpre.map Prod.fst) = Except.ok xs)
    (hnodup : xs.Nodup)
    (d : Int) (hd : lineOffsetFromId c pdup.1 = Except.ok d)
    (hmem : d ∈ xs) :
    Chip.request_lines c config output_values =
      Except.error (PyError.valueError (dupMsg d)) := by
  unfold Chip.request_lines
  rw [hm]
  simp only [Except.bind]
  rw [hflat]
  obtain ⟨st2, heq, hseen⟩ :=
    requestLoop_clean c mapped fpre xs ReqState.init hres hnodup
      (by simp [ReqState.init]) (pdup :: frest)
  rw [heq]
  have hmem2 : d ∈ st2.seen_offsets := by
    rw [hseen]; simp [ReqState.init, hmem]
  obtain ⟨line, settings⟩ := pdup
  simp only at hd
  simp [requestLoop, requestStep, hd, Except.bind, hmem2, Except.map]

/-- C1 witness: requesting the group (0, 1, 2, 1) on an 8-line chip fails
with the duplicate-offset error naming offset 1. -/
theorem C1_witness :
    Chip.request_lines chip8 cfgDup none =
      Except.error (PyError.valueError (dupMsg 1)) :=
  C1_duplicate_offset_rejected chip8 cfgDup none none rfl
    [(LineId.int 0, none), (LineId.int 1, none), (LineId.int 2, none)]
    (LineId.int 1, none) [] rfl [0, 1, 2] rfl (by decide) 1 rfl (by decide)

/-! ## Claim C5 -/

/-- C5 counterexample to the claim as stated: the config `{(0, 1): None}`
has one original entry, yet the submitted line configuration holds two
blocks, each carrying a single offset — not one block carrying all the
resolved offsets of the entry. -/
theorem C5_counterexample :
    cfgPair.length = 1 ∧
      (Chip.request_lines chip8 cfgPair none).map
        (fun r => r.submitted.blocks.map Prod.fst) =
        Except.ok [[0], [1]] :=
  ⟨rfl, rfl⟩

/-- C5 (amended): `Chip.request_lines` emits one line-configuration block
per *flattened identifier* — a group key of n identifiers contributes n
blocks, in order — each block pairing that identifier's single resolved
offset with the entry's settings (converted for the collaborator), or the
all-default settings when the entry's value is None. -/
theorem C5_blocks_per_identifier (c : Chip) (config : Config)
    (offs : List Int)
    (hres : resolveList c ((config_iter config).map Prod.fst) =
      Except.ok offs)
    (hnodup : offs.Nodup) :
    ∃ r, Chip.request_lines c config none = Except.ok r ∧
      r.submitted.blocks =
        (offs.zip ((config_iter config).map Prod.snd)).map fun p =>
          ([p.1], lineSettingsToExt (p.2.getD LineSettings.default)) :=
  ⟨requestResult c (config_iter config) offs none,
    request_lines_ok c config none none offs rfl hres hnodup, rfl⟩

/-- C5 witness: the group (0, 1) with default settings yields two
single-offset default blocks. -/
theorem C5_witness :
    ∃ r, Chip.request_lines chip8 cfgPair none = Except.ok r ∧
      r.submitted.blocks =
        [([0], lineSettingsToExt LineSettings.default),
          ([1], lineSettingsToExt LineSettings.default)] := by
  obtain ⟨r, h1, h2⟩ :=
    C5_blocks_per_identifier chip8 cfgPair [0, 1] rfl (by decide)
  exact ⟨r, h1, by rw [h2]; rfl⟩

/-! ## Claim C6 -/

/-- A concrete collaborator request whose read primitive answers `active`
for every offset it is asked about (so a forwarded out-of-request offset is
visible as a success). -/
def demoExt : ExtRequest :=
  ⟨7, fun offsets => Except.ok (offsets.map fun _ => Value.active),
    fun _ => Except.ok (), fun _ => Except.ok (), true, fun _ => []⟩

/-- A live request on offsets 2 and 4 with one mapped name. -/
def demoLr : LineRequest :=
  ⟨some demoExt, "gpiochip0", [2, 4], [("foo", 2)],
    [LineId.int 2, LineId.int 4]⟩

/-- C6 counterexample to the claim as stated: offset 9 is outside the
requested set [2, 4], yet `get_values([9])` does not fail locally — the
offset is forwarded to the collaborator and the call succeeds with the
collaborator's answer. -/
theorem C6_counterexample :
    demoLr._offsets = [2, 4] ∧ ¬ (9 : Int) ∈ demoLr._offsets ∧
      demoLr.get_values (some [LineId.int 9]) =
        Except.ok [Value.active] :=
  ⟨rfl, by decide, rfl⟩

/-- C6 (amended): on a live request, a string identifier is resolved
through the name map and the call fails locally with `ValueError` when the
name is absent (never requested); an integer identifier is passed through
without any validation against the requested offsets, so the resolved list
is handed to the collaborator verbatim — an out-of-request offset is the
collaborator's to reject, not this layer's. -/
theorem C6_line_resolution (ext : ExtRequest) (cn : String)
    (offs : List Int) (nm : List (String × Int)) (ls : List LineId)
    (s : String) (hs : assocGet nm s = none) (i : Int) (v : Value) :
    (LineRequest.get_values ⟨some ext, cn, offs, nm, ls⟩
        (some [LineId.str s]) =
      Except.error (PyError.valueError ("unknown line name: " ++ s))) ∧
    (LineRequest.set_values ⟨some ext, cn, offs, nm, ls⟩
        [(LineId.str s, v)] =
      Except.error (PyError.valueError ("unknown line name: " ++ s))) ∧
    (LineRequest.get_values ⟨some ext, cn, offs, nm, ls⟩
        (some [LineId.int i]) = ext.get_values [i]) ∧
    (LineRequest.set_values ⟨some ext, cn, offs, nm, ls⟩
        [(LineId.int i, v)] = ext.set_values [(i, v)]) := by
  refine ⟨?_, ?_, ?_, ?_⟩ <;>
    simp [LineRequest.get_values, LineRequest.set_values, linesToOffsets,
      LineRequest._line_to_offset, hs, Except.bind, Except.map, assocSet,
      List.foldlM]

/-- C6 witness: the amended theorem on the concrete live request — the
unknown name "xyz" fails locally, offset 9 is forwarded. -/
theorem C6_witness :
    (demoLr.get_values (some [LineId.str "xyz"]) =
      Except.error (PyError.valueError ("unknown line name: " ++ "xyz"))) ∧
    (demoLr.set_values [(LineId.str "xyz", Value.active)] =
      Except.error (PyError.valueError ("unknown line name: " ++ "xyz"))) ∧
    (demoLr.get_values (some [LineId.int 9]) = demoExt.get_values [9]) ∧
    (demoLr.set_values [(LineId.int 9, Value.active)] =
      demoExt.set_values [(9, Value.active)]) :=
  C6_line_resolution demoExt "gpiochip0" [2, 4] [("foo", 2)]
    [LineId.int 2, LineId.int 4] "xyz" rfl 9 Value.active

/-! ## Claim C7 -/

lemma assocGet_assocSet_self {α β : Type} [DecidableEq α]
    (l : List (α × β)) (k : α) (v : β) :
    assocGet (assocSet l k v) k = some v := by
  induction l with
  | nil => simp [assocGet, assocSet]
  | cons p rest ih =>
    by_cases h : p.1 = k
    · simp [assocGet, assocSet, h]
    · obtain ⟨k2, v2⟩ := p
      simp only at h
      simp [assocGet, assocSet, h, ih]

lemma assocGet_assocSet_ne {α β : Type} [DecidableEq α]
    (l : List (α × β)) (k k2 : α) (v : β) (h : k2 ≠ k) :
    assocGet (assocSet l k2 v) k = assocGet l k := by
  induction l with
  | nil => simp [assocGet, assocSet, h]
  | cons p rest ih =>
    obtain ⟨k3, v3⟩ := p
    by_cases h2 : k3 = k2
    · simp [assocGet, assocSet, h2, h]
    · simp only [assocSet, if_neg h2]
      by_cases h3 : k3 = k <;> simp [assocGet, h3, ih]

lemma assocGet_append {α β : Type} [DecidableEq α]
    (l1 l2 : List (α × β)) (k : α) :
    assocGet (l1 ++ l2) k =
      ((assocGet l1 k).rec (assocGet l2 k) fun v => some v :
        Option β) := by
  induction l1 with
  | nil => simp [assocGet]
  | cons p rest ih =>
    obtain ⟨k2, v2⟩ := p
    by_cases h : k2 = k <;> simp [assocGet, h, ih]

/-- An update for an identifier that is not the explicit name `s` never
changes what `s` maps to once `s` is present: explicit other names touch a
different key, and offset-discovered names are only appended when absent. -/
lemma updateNameMap_preserve (c : Chip) (nm : List (String × Int))
    (line : LineId) (off : Int) (s : String) (o : Int)
    (hso : assocGet nm s = some o) (hne : line ≠ LineId.str s) :
    assocGet (updateNameMap c nm line off) s = some o := by
  cases line with
  | str s2 =>
    have : s2 ≠ s := fun h => hne (by rw [h])
    rw [updateNameMap, assocGet_assocSet_ne nm s s2 off this, hso]
  | int i =>
    cases h : c.get_line_name off with
    | none => simp [updateNameMap, h, hso]
    | some n =>
      by_cases h2 : n ≠ "" ∧ (assocGet nm n).isNone = true
      · simp only [updateNameMap, h]
        rw [if_pos h2, assocGet_append, hso]
      · simp only [updateNameMap, h]
        rw [if_neg h2]; exact hso

lemma buildNameMap_append (c : Chip) :
    ∀ (P1 P2 : List (LineId × Int)) (nm : List (String × Int)),
      buildNameMap c nm (P1 ++ P2) = buildNameMap c (buildNameMap c nm P1) P2 := by
  intro P1
  induction P1 with
  | nil => intro P2 nm; rfl
  | cons p rest ih => intro P2 nm; simp [buildNameMap, ih]

lemma buildNameMap_preserve (c : Chip) :
    ∀ (P : List (LineId × Int)) (nm : List (String × Int)) (s : String)
      (o : Int),
      assocGet nm s = some o → (∀ q ∈ P, q.1 ≠ LineId.str s) →
      assocGet (buildNameMap c nm P) s = some o := by
  intro P
  induction P with
  | nil => intro nm s o hso _; exact hso
  | cons q rest ih =>
    intro nm s o hso hP
    rw [buildNameMap]
    exact ih (updateNameMap c nm q.1 q.2) s o
      (updateNameMap_preserve c nm q.1 q.2 s o hso (hP q (by simp)))
      (fun q2 hq2 => hP q2 (by simp [hq2]))

/-- C7: a successful request's name map is the in-order fold of the
per-identifier update over (identifier, offset) pairs, while `.lines` and
`.offsets` keep the request order; under that fold an identifier supplied
as the name `s` records `s -> o`, overwriting any earlier entry and
surviving all later updates except an explicit re-request of `s`; and an
identifier supplied as an integer records its chip-discovered name only
when no entry for that name exists yet, so of several requested lines
sharing one name the first requested claims it. -/
theorem C7_name_map_first_wins (c : Chip) (config : Config)
    (offs : List Int)
    (hres : resolveList c ((config_iter config).map Prod.fst) =
      Except.ok offs)
    (hnodup : offs.Nodup) :
    (∃ r, Chip.request_lines c config none = Except.ok r ∧
      r.name_map =
        buildNameMap c [] (((config_iter config).map Prod.fst).zip offs) ∧
      r.lines = (config_iter config).map Prod.fst ∧
      r.offsets = offs) ∧
    (∀ (nm : List (String × Int)) (P1 P2 : List (LineId × Int))
      (s : String) (o : Int),
      (∀ q ∈ P2, q.1 ≠ LineId.str s) →
      assocGet (buildNameMap c nm (P1 ++ (LineId.str s, o) :: P2)) s =
        some o) ∧
    (∀ (nm : List (String × Int)) (P1 P2 : List (LineId × Int))
      (i o : Int) (s : String),
      c.get_line_name o = some s → s ≠ "" →
      assocGet (buildNameMap c nm P1) s = none →
      (∀ q ∈ P2, q.1 ≠ LineId.str s) →
      assocGet (buildNameMap c nm (P1 ++ (LineId.int i, o) :: P2)) s =
        some o) := by
  refine ⟨?_, ?_, ?_⟩
  · exact ⟨requestResult c (config_iter config) offs none,
      request_lines_ok c config none none offs rfl hres hnodup,
      rfl, rfl, rfl⟩
  · intro nm P1 P2 s o hP2
    rw [buildNameMap_append, buildNameMap]
    exact buildNameMap_preserve c P2 _ s o
      (by rw [updateNameMap, assocGet_assocSet_self]) hP2
  · intro nm P1 P2 i o s hname hne hnone hP2
    rw [buildNameMap_append, buildNameMap]
    refine buildNameMap_preserve c P2 _ s o ?_ hP2
    rw [updateNameMap]
    simp only [hname]
    rw [if_pos ⟨hne, by rw [hnone]; rfl⟩, assocGet_append, hnone]
    simp [assocGet]

/-- C7 witness: a 2-line chip whose lines 0 and 1 are both named "fizz",
requested by offsets as (1, 0): the name map holds "fizz" mapped to 1 (the
first-requested line), while `.lines` and `.offsets` keep [1, 0]. -/
theorem C7_witness :
    (∃ r, Chip.request_lines fizzChip cfgFizz none = Except.ok r ∧
      r.name_map = [("fizz", 1)] ∧
      r.lines = [LineId.int 1, LineId.int 0] ∧ r.offsets = [1, 0]) ∧
    assocGet (buildNameMap fizzChip []
      ([] ++ (LineId.int 1, (1 : Int)) :: [(LineId.int 0, (0 : Int))]))
      "fizz" = some 1 := by
  have h := C7_name_map_first_wins fizzChip cfgFizz [1, 0] rfl (by decide)
  constructor
  · obtain ⟨r, h1, h2, h3, h4⟩ := h.1
    exact ⟨r, h1, by rw [h2]; rfl, by rw [h3]; rfl, h4⟩
  · exact h.2.2 [] [] [(LineId.int 0, 0)] 1 1 "fizz" rfl (by decide) rfl
      (by decide)

/-! ## Claim C8 -/

lemma assocSet_ne_nil {α β : Type} [DecidableEq α]
    (l : List (α × β)) (k : α) (v : β) : assocSet l k v ≠ [] := by
  cases l with
  | nil => simp [assocSet]
  | cons p rest =>
    obtain ⟨k2, v2⟩ := p
    by_cases h : k2 = k <;> simp [assocSet, h]

/-- The offset-to-value fold of `mappedOutputValues` never shrinks: with a
non-empty accumulator or a non-empty input list the result is non-empty. -/
lemma movFold_ne_nil (c : Chip) :
    ∀ (ovs : List (LineId × Value)) (acc m : List (Int × Value)),
      ovs.foldlM
        (fun acc p =>
          (lineOffsetFromId c p.1).map fun off => assocSet acc off p.2)
        acc = Except.ok m →
      (acc ≠ [] ∨ ovs ≠ []) → m ≠ [] := by
  intro ovs
  induction ovs with
  | nil =>
    intro acc m h hne
    simp only [List.foldlM_nil] at h
    cases h
    exact hne.resolve_right (fun h2 => h2 rfl)
  | cons p rest ih =>
    intro acc m h _
    rw [List.foldlM_cons] at h
    cases h1 : lineOffsetFromId c p.1 with
    | error e =>
      rw [h1] at h
      simp [Except.map, Except.bind, Bind.bind] at h
    | ok off =>
      rw [h1] at h
      simp only [Except.map, Except.bind, Bind.bind] at h
      exact ih (assocSet acc off p.2) m h
        (Or.inl (assocSet_ne_nil acc off p.2))

/-- C8: with a non-empty `output_values` mapping (that resolves to an
offset-to-value dict) and at least one requested line, the submitted
configuration carries exactly one flat output-value vector holding, for
every requested offset in request order, the mapped value when the offset
is in the dict and inactive otherwise; with `output_values` absent or
empty, no output-value vector is set at all. -/
theorem C8_output_values (c : Chip) (config : Config) (offs : List Int)
    (hres : resolveList c ((config_iter config).map Prod.fst) =
      Except.ok offs)
    (hnodup : offs.Nodup) :
    (∀ ovs mapped, ovs ≠ [] →
      mappedOutputValues c (some ovs) = Except.ok (some mapped) →
      offs ≠ [] →
      ∃ r, Chip.request_lines c config (some ovs) = Except.ok r ∧
        r.submitted.output_values =
          some (offs.map fun o => (assocGet mapped o).getD Value.inactive)) ∧
    (∃ r, Chip.request_lines c config none = Except.ok r ∧
      r.submitted.output_values = none) ∧
    (∃ r, Chip.request_lines c config (some []) = Except.ok r ∧
      r.submitted.output_values = none) := by
  refine ⟨?_, ?_, ?_⟩
  · intro ovs mapped hovs hm hoffs
    have hmapped : mapped ≠ [] := by
      rw [mappedOutputValues] at hm
      rw [if_neg (by simpa using hovs)] at hm
      cases h2 : ovs.foldlM
          (fun acc p =>
            (lineOffsetFromId c p.1).map fun off => assocSet acc off p.2)
          ([] : List (Int × Value)) with
      | error e => rw [h2] at hm; simp [Except.map] at hm
      | ok m2 =>
        rw [h2] at hm
        simp only [Except.map, Except.ok.injEq, Option.some.injEq] at hm
        exact hm ▸ movFold_ne_nil c ovs [] m2 h2 (Or.inr hovs)
    refine ⟨requestResult c (config_iter config) offs (some mapped),
      request_lines_ok c config (some ovs) (some mapped) offs hm hres hnodup,
      ?_⟩
    have hgov : govAll (some mapped) offs = govFor mapped offs := by
      simp [govAll, hmapped]
    simp only [requestResult, hgov]
    rw [if_neg (by simp [govFor, hoffs])]
    rfl
  · exact ⟨requestResult c (config_iter config) offs none,
      request_lines_ok c config none none offs rfl hres hnodup,
      by simp [requestResult, govAll]⟩
  · exact ⟨requestResult c (config_iter config) offs none,
      request_lines_ok c config (some []) none offs rfl hres hnodup,
      by simp [requestResult, govAll]⟩

/-- C8 witness: four requested output lines with an override for offset 2
only — the submitted vector drives offset 2 active and the other three
inactive; and with no output values, no vector is set. -/
theorem C8_witness :
    (∃ r, Chip.request_lines chip8 cfgQuad
        (some [(LineId.int 2, Value.active)]) = Except.ok r ∧
      r.submitted.output_values =
        some [Value.inactive, Value.inactive, Value.active,
          Value.inactive]) ∧
    (∃ r, Chip.request_lines chip8 cfgQuad none = Except.ok r ∧
      r.submitted.output_values = none) := by
  have h := C8_output_values chip8 cfgQuad [0, 1, 2, 3] rfl (by decide)
  constructor
  · obtain ⟨r, h1, h2⟩ := h.1 [(LineId.int 2, Value.active)]
      [(2, Value.active)] (by decide) rfl (by decide)
    exact ⟨r, h1, by rw [h2]; rfl⟩
  · exact h.2.1

/-! ## Claim C9 -/

/-- C9: releasing a live request succeeds once, and on the released object
every further operation — a second release, get_value(s), set_value(s),
reconfigure_lines, wait_edge_events, read_edge_events, and the chip_name,
num_lines, offsets, lines and fd properties — fails with the
released-request error rather than crashing or succeeding. -/
theorem C9_released_guard (ext : ExtRequest) (cn : String)
    (offs : List Int) (nm : List (String × Int)) (ls : List LineId) :
    ∃ lr2, LineRequest.release ⟨some ext, cn, offs, nm, ls⟩ =
        Except.ok lr2 ∧
      lr2.release = Except.error PyError.requestReleased ∧
      (∀ lines, lr2.get_values lines =
        Except.error PyError.requestReleased) ∧
      (∀ line, lr2.get_value line =
        Except.error PyError.requestReleased) ∧
      (∀ vals, lr2.set_values vals =
        Except.error PyError.requestReleased) ∧
      (∀ line v, lr2.set_value line v =
        Except.error PyError.requestReleased) ∧
      (∀ cfg, lr2.reconfigure_lines cfg =
        Except.error PyError.requestReleased) ∧
      lr2.wait_edge_events = Except.error PyError.requestReleased ∧
      (∀ m, lr2.read_edge_events m =
        Except.error PyError.requestReleased) ∧
      lr2.chip_name = Except.error PyError.requestReleased ∧
      lr2.num_lines = Except.error PyError.requestReleased ∧
      lr2.offsets = Except.error PyError.requestReleased ∧
      lr2.lines = Except.error PyError.requestReleased ∧
      lr2.fd = Except.error PyError.requestReleased := by
  refine ⟨⟨none, cn, offs, nm, ls⟩, rfl, rfl, fun _ => rfl, fun _ => rfl,
    fun _ => rfl, fun _ _ => rfl, fun _ => rfl, rfl, fun _ => rfl, rfl,
    rfl, rfl, rfl, rfl⟩

/-! ## Claim C10 -/

/-- C10: on a live request, `get_values` given an explicitly empty list of
lines behaves exactly as when given `None` — the Python `lines or
self._lines` treats both as falsy — and in both cases it resolves the full
originally requested line list in request order and hands those offsets to
the collaborator. -/
theorem C10_empty_lines_reads_all (ext : ExtRequest) (cn : String)
    (offs : List Int) (nm : List (String × Int)) (ls : List LineId) :
    LineRequest.get_values ⟨some ext, cn, offs, nm, ls⟩ (some []) =
      LineRequest.get_values ⟨some ext, cn, offs, nm, ls⟩ none ∧
    LineRequest.get_values ⟨some ext, cn, offs, nm, ls⟩ (some []) =
      (linesToOffsets ⟨some ext, cn, offs, nm, ls⟩ ls).bind
        ext.get_values :=
  ⟨rfl, rfl⟩
end Gpiod
